import Mathlib

/-!
# Raft visualisation mock (`main.go`): event log, scenario runner, diagram renderer

A shallow embedding of `main.go`.  The program keeps one `Cluster` (a slice of
nodes and a slice of recorded events), mutates it through `record`, `simulate`
and `reset`, and serves it over HTTP.

Modelling decisions, all taken from the source:

* `Cluster.Nodes` is a `[]*Node`.  The only constructor, `NewCluster`, allocates
  one fresh `Node` per slot and no code reassigns a slot, so the slice of
  pointers is modelled as the list of the records pointed to; a node's mutex is
  named by the node's index.
* `Cluster.Events` is a `[]Event` that is `nil` after `NewCluster` and after
  `reset`.  Go distinguishes a nil slice from an empty one (for instance in
  `encoding/json`), so a slice is an `Option (List _)` with `none` for `nil`.
* `time.Now().UnixMilli()` is read from an arbitrary oracle `now`: the `k`-th
  read returns `now k`.
* `sync.Mutex` operations are logged, in program order, in `World.lockLog`.
* Go strings are taken to be valid UTF-8 (all strings the program builds are).
-/

namespace RaftViz

/-! ## Data model -/

/-- A Go slice whose nil-ness is observable: `none` is the nil slice. -/
abbrev Slice (α : Type) := Option (List α)

/-- The elements of a slice, in index order (none for the nil slice). -/
def Slice.elems {α : Type} : Slice α → List α
  | none => []
  | some xs => xs

/-- Go `len(s)`. -/
def Slice.len {α : Type} (s : Slice α) : Nat := s.elems.length

/-- Go `append(s, x)`: the result is never nil. -/
def Slice.append {α : Type} (s : Slice α) (x : α) : Slice α := some (s.elems ++ [x])

/-- Go `type Event struct`: one recorded message. -/
structure Event where
  From : String
  To : String
  Msg : String
  At : Int
  deriving DecidableEq, Repr, Inhabited

/-- Go `type Node struct`, without its mutex (see `World.lockLog`). -/
structure Node where
  ID : String
  Role : String
  Term : Int
  deriving DecidableEq, Repr, Inhabited

/-- Go `type Cluster struct`, without its mutex (see `World.lockLog`). -/
structure Cluster where
  Nodes : List Node
  Events : Slice Event
  deriving DecidableEq, Repr

/-- The mutexes of the program: `Cluster.Mu` and, per node index, `Node.Mu`. -/
inductive Lock where
  | cluster : Lock
  | node (i : Nat) : Lock
  deriving DecidableEq, Repr

/-- One mutex operation. -/
inductive LockOp where
  | acquire (l : Lock) : LockOp
  | release (l : Lock) : LockOp
  deriving DecidableEq, Repr

/-- The state the methods of `main.go` run in: the cluster, the wall clock
(`now k` is what the `k`-th call of `time.Now().UnixMilli()` returns, `reads`
counts the calls made so far) and the log of mutex operations performed. -/
structure World where
  cluster : Cluster
  now : Nat → Int
  reads : Nat
  lockLog : List LockOp

/-! ## Library functions used by the source -/

/-- The verb `%d` of `fmt.Sprintf` on an `int`: decimal digits, `-` when negative. -/
def fmtD : Int → String
  | Int.ofNat n => Nat.repr n
  | Int.negSucc n => "-" ++ Nat.repr (n + 1)

/-- Go `m.Lock()`. -/
def lock (l : Lock) (w : World) : World :=
  { w with lockLog := w.lockLog ++ [LockOp.acquire l] }

/-- Go `m.Unlock()`. -/
def unlock (l : Lock) (w : World) : World :=
  { w with lockLog := w.lockLog ++ [LockOp.release l] }

/-- Go `time.Now().UnixMilli()`: the value read, and the world after the read. -/
def timeNow (w : World) : Int × World :=
  (w.now w.reads, { w with reads := w.reads + 1 })

/-- Go `time.Sleep(d)`: only time passes, and the clock oracle is arbitrary already. -/
def sleep (_ms : Nat) (w : World) : World := w

/-- Apply `f` to the element at index `i` (Go `xs[i].field = v` through the pointer). -/
def modifyAt {α : Type} (f : α → α) : Nat → List α → List α
  | _, [] => []
  | 0, x :: xs => f x :: xs
  | i + 1, x :: xs => x :: modifyAt f i xs

/-- Go `c.Nodes[i]`, read in world `w` (callers keep `i` below `len(c.Nodes)`). -/
def nodeAt (w : World) (i : Nat) : Node := w.cluster.Nodes.getD i default

/-- Go `c.Nodes[i].Role = role`. -/
def setRole (i : Nat) (role : String) (w : World) : World :=
  { w with cluster :=
      { w.cluster with Nodes := modifyAt (fun nd => { nd with Role := role }) i w.cluster.Nodes } }

/-- Go `c.Nodes[i].Term = term`. -/
def setTerm (i : Nat) (term : Int) (w : World) : World :=
  { w with cluster :=
      { w.cluster with Nodes := modifyAt (fun nd => { nd with Term := term }) i w.cluster.Nodes } }

/-! ## `NewCluster`, `record`, `simulate`, `reset` -/

/-- Go `NewCluster(n)`: `n` followers `N1 .. Nn` with term 0 and a nil event slice.
(`n` is a `Nat`: `make` panics on a negative length.) -/
def NewCluster (n : Nat) : Cluster :=
  { Nodes := (List.range n).map
      (fun i => { ID := "N" ++ fmtD (Int.ofNat i + 1), Role := "follower", Term := 0 }),
    Events := none }

/-- Go `(*Cluster).record`: under the cluster mutex, append one event stamped
with the current time; the deferred unlock runs last. -/
def record (src dst msg : String) (w : World) : World :=
  let w := lock Lock.cluster w
  let (t, w) := timeNow w
  let w := { w with cluster :=
    { w.cluster with Events := w.cluster.Events.append { From := src, To := dst, Msg := msg, At := t } } }
  unlock Lock.cluster w

/-- The vote loop body of `simulate` for peer index `i`. -/
def voteStep (w : World) (i : Nat) : World :=
  let w := record (nodeAt w 0).ID (nodeAt w i).ID
    ("RequestVote(term=" ++ fmtD (nodeAt w 0).Term ++ ")") w
  record (nodeAt w i).ID (nodeAt w 0).ID "VoteGranted" w

/-- The inner heartbeat loop body of `simulate` for peer index `i`. -/
def heartbeatStep (w : World) (i : Nat) : World :=
  record (nodeAt w 0).ID (nodeAt w i).ID
    ("AppendEntries(term=" ++ fmtD (nodeAt w 0).Term ++ ", heartbeat)") w

/-- One heartbeat round of `simulate`: every peer in index order, then the pause. -/
def heartbeatRound (w : World) (_r : Nat) : World :=
  let w := (List.range' 1 (w.cluster.Nodes.length - 1)).foldl heartbeatStep w
  sleep 50 w

/-- Go `(*Cluster).simulate`.  The loops `for i := 1; i < len(c.Nodes); i++`
run over `1 .. len-1` (no statement of the body changes `c.Nodes`). -/
def simulate (w : World) : World :=
  if w.cluster.Nodes.length = 0 then w
  else
    let w := lock (Lock.node 0) w
    let w := setRole 0 "candidate" w
    let w := setTerm 0 1 w
    let w := unlock (Lock.node 0) w
    let w := (List.range' 1 (w.cluster.Nodes.length - 1)).foldl voteStep w
    let w := lock (Lock.node 0) w
    let w := setRole 0 "leader" w
    let w := unlock (Lock.node 0) w
    (List.range 3).foldl heartbeatRound w

/-- The loop body of `reset` for node index `i`. -/
def resetStep (w : World) (i : Nat) : World :=
  let w := lock (Lock.node i) w
  let w := setRole i "follower" w
  let w := setTerm i 0 w
  unlock (Lock.node i) w

/-- Go `(*Cluster).reset`: under the cluster mutex, every node back to
follower / term 0 (each under its own mutex), then `c.Events = nil`. -/
def reset (w : World) : World :=
  let w := lock Lock.cluster w
  let w := (List.range w.cluster.Nodes.length).foldl resetStep w
  let w := { w with cluster := { w.cluster with Events := none } }
  unlock Lock.cluster w

/-- A world holding a fresh `NewCluster(n)`, nothing read from the clock, no lock taken. -/
def freshWorld (n : Nat) (now : Nat → Int) : World :=
  { cluster := NewCluster n, now := now, reads := 0, lockLog := [] }

/-! ## `mermaidSequence` -/

/-- The order in which a Go `for p := range parts` visits the keys of a map:
unspecified, but each key exactly once.  `visit` is given the keys in insertion
order and returns them in visiting order. -/
structure RangeOrder where
  visit : List String → List String
  perm : ∀ ks : List String, (visit ks).Perm ks

/-- The visiting order that follows insertion order. -/
def RangeOrder.insertion : RangeOrder := ⟨fun ks => ks, fun ks => List.Perm.refl ks⟩

/-- The visiting order opposite to insertion order. -/
def RangeOrder.reversed : RangeOrder := ⟨fun ks => ks.reverse, fun ks => List.reverse_perm ks⟩

/-- Go `parts[k] = true` on a `map[string]bool` whose values are all `true`:
the map is its list of keys, without repetition, in insertion order. -/
def mapSet (parts : List String) (k : String) : List String :=
  if k ∈ parts then parts else parts ++ [k]

/-- The first loop of `mermaidSequence`: the keys of `parts` after it. -/
def collectParts (events : List Event) : List String :=
  events.foldl (fun parts e => mapSet (mapSet parts e.From) e.To) []

/-- Go `fmt.Sprintf("participant %s\n", p)`. -/
def participantLine (p : String) : String := "participant " ++ p ++ "\n"

/-- Go `fmt.Sprintf("%s->>%s: %s\n", e.From, e.To, e.Msg)`. -/
def messageLine (e : Event) : String := e.From ++ "->>" ++ e.To ++ ": " ++ e.Msg ++ "\n"

/-- Go `mermaidSequence(events)`; `b` is the `strings.Builder`, `o` the order
in which the `range` over the map visits its keys. -/
def mermaidSequence (o : RangeOrder) (events : Slice Event) : String :=
  let b := ""
  let b := b ++ "sequenceDiagram\n"
  let parts := collectParts events.elems
  let b := (o.visit parts).foldl (fun b p => b ++ participantLine p) b
  let b := events.elems.foldl (fun b e => b ++ messageLine e) b
  b

/-! ## `encoding/json` on `[]Event` -/

/-- One character of a JSON string as `encoding/json` writes it with its default
HTML escaping (Go 1.22 and later, which write `\b` and `\f` in short form). -/
def jsonEscapeChar (c : Char) : String :=
  if c.toNat = 92 then "\\\\"
  else if c.toNat = 34 then "\\\""
  else if c.toNat = 8 then "\\b"
  else if c.toNat = 12 then "\\f"
  else if c.toNat = 10 then "\\n"
  else if c.toNat = 13 then "\\r"
  else if c.toNat = 9 then "\\t"
  else if c.toNat < 32 ∨ c.toNat = 60 ∨ c.toNat = 62 ∨ c.toNat = 38 then
    "\\u00" ++ String.singleton (Nat.digitChar (c.toNat / 16))
      ++ String.singleton (Nat.digitChar (c.toNat % 16))
  else if c.toNat = 8232 then "\\u2028"
  else if c.toNat = 8233 then "\\u2029"
  else String.singleton c

/-- A Go string as a JSON string literal. -/
def jsonString (s : String) : String :=
  "\"" ++ String.join (s.toList.map jsonEscapeChar) ++ "\""

/-- An `Event` as a JSON object: the keys are the `json:"..."` tags, in field order. -/
def jsonEvent (e : Event) : String :=
  "\x7b\"from\":" ++ jsonString e.From ++ ",\"to\":" ++ jsonString e.To
    ++ ",\"msg\":" ++ jsonString e.Msg ++ ",\"at\":" ++ fmtD e.At ++ "\x7d"

/-- What `json.NewEncoder(w).Encode(events)` writes for a `[]Event`: `null` for
the nil slice, else the array of the objects; a newline ends the value. -/
def jsonEncodeEvents : Slice Event → String
  | none => "null\n"
  | some es => "[" ++ ",".intercalate (es.map jsonEvent) ++ "]\n"

/-! ## HTTP handlers of `main` -/

/-- The part of `*http.Request` the handlers read. -/
structure Request where
  Method : String
  deriving DecidableEq, Repr

/-- An `http.ResponseWriter`: the header map, the status code once written, the body. -/
structure ResponseWriter where
  header : List (String × String)
  status : Option Nat
  body : String
  deriving DecidableEq, Repr

/-- The writer a handler is called with. -/
def ResponseWriter.fresh : ResponseWriter := { header := [], status := none, body := "" }

/-- Go `w.Header().Set(k, v)`. -/
def ResponseWriter.setHeader (k v : String) (rw : ResponseWriter) : ResponseWriter :=
  { rw with header := rw.header.filter (fun kv => kv.1 ≠ k) ++ [(k, v)] }

/-- Go `w.WriteHeader(code)`: only the first call sets the status. -/
def ResponseWriter.WriteHeader (code : Nat) (rw : ResponseWriter) : ResponseWriter :=
  if rw.status.isSome then rw else { rw with status := some code }

/-- Go `w.Write(b)`: writes the status 200 if none was written, then the bytes. -/
def ResponseWriter.Write (b : String) (rw : ResponseWriter) : ResponseWriter :=
  let rw := rw.WriteHeader 200
  { rw with body := rw.body ++ b }

/-- The status code the client receives: 200 when the handler wrote none. -/
def ResponseWriter.code (rw : ResponseWriter) : Nat := rw.status.getD 200

/-- Go `http.MethodPost`. -/
def MethodPost : String := "POST"

/-- Go `http.StatusMethodNotAllowed`. -/
def StatusMethodNotAllowed : Nat := 405

/-- The handler of `/events`. -/
def eventsHandler (rw : ResponseWriter) (_r : Request) (w : World) : World × ResponseWriter :=
  let w := lock Lock.cluster w
  let rw := rw.setHeader "Content-Type" "application/json"
  let rw := rw.Write (jsonEncodeEvents w.cluster.Events)
  let w := unlock Lock.cluster w
  (w, rw)

/-- The handler of `/simulate`. -/
def simulateHandler (rw : ResponseWriter) (r : Request) (w : World) : World × ResponseWriter :=
  if r.Method ≠ MethodPost then (w, rw.WriteHeader StatusMethodNotAllowed)
  else
    let w := simulate w
    let rw := rw.setHeader "Content-Type" "application/json"
    let rw := rw.Write "\x7b\"ok\":true\x7d"
    (w, rw)

/-- The handler of `/reset`. -/
def resetHandler (rw : ResponseWriter) (r : Request) (w : World) : World × ResponseWriter :=
  if r.Method ≠ MethodPost then (w, rw.WriteHeader StatusMethodNotAllowed)
  else
    let w := reset w
    let rw := rw.setHeader "Content-Type" "application/json"
    let rw := rw.Write "\x7b\"ok\":true\x7d"
    (w, rw)

/-- The handler of `/sequence`. -/
def sequenceHandler (o : RangeOrder) (rw : ResponseWriter) (_r : Request) (w : World) :
    World × ResponseWriter :=
  let w := lock Lock.cluster w
  let m := mermaidSequence o w.cluster.Events
  let rw := rw.setHeader "Content-Type" "text/plain; charset=utf-8"
  let rw := rw.Write m
  let w := unlock Lock.cluster w
  (w, rw)

/-- The handler of `/`; `html` is the page, a string constant of the source. -/
def indexHandler (html : String) (rw : ResponseWriter) (_r : Request) (w : World) :
    World × ResponseWriter :=
  let rw := rw.setHeader "Content-Type" "text/html; charset=utf-8"
  let rw := rw.Write html
  (w, rw)

/-- The state `main` starts serving in: `NewCluster(5)` after one `simulate`. -/
def startup (now : Nat → Int) : World := simulate (freshWorld 5 now)

/-- The two operations that change the cluster once the server runs. -/
inductive Op where
  | simulate : Op
  | reset : Op
  deriving DecidableEq, Repr

/-- Run one operation. -/
def Op.run : Op → World → World
  | Op.simulate => RaftViz.simulate
  | Op.reset => RaftViz.reset

/-- Run a sequence of operations, first to last. -/
def runOps (ops : List Op) (w : World) : World := ops.foldl (fun w op => op.run w) w

/-! ## Lock discipline -/

/-- Whether the lock is a node's. -/
def Lock.isNode : Lock → Bool
  | Lock.cluster => false
  | Lock.node _ => true

/-- Whether, in a log of mutex operations run with the locks `held`, some node
mutex is acquired while the cluster mutex is held. -/
def nodeUnderCluster : List Lock → List LockOp → Bool
  | _, [] => false
  | held, LockOp.acquire l :: rest =>
      (l.isNode && held.contains Lock.cluster) || nodeUnderCluster (l :: held) rest
  | held, LockOp.release l :: rest => nodeUnderCluster (held.erase l) rest

/-- Whether, in a log of mutex operations run with the locks `held`, the
cluster mutex is acquired while some node mutex is held. -/
def clusterUnderNode : List Lock → List LockOp → Bool
  | _, [] => false
  | held, LockOp.acquire l :: rest =>
      (!l.isNode && held.any Lock.isNode) || clusterUnderNode (l :: held) rest
  | held, LockOp.release l :: rest => clusterUnderNode (held.erase l) rest

/-- The mutex operations an operation performs when started in `w`. -/
def lockTrace (op : World → World) (w : World) : List LockOp :=
  (op { w with lockLog := [] }).lockLog

/-- The discipline "node mutexes and the cluster mutex are never nested", on
the log of an operation started with no mutex held. -/
def neverNested (t : List LockOp) : Bool :=
  !nodeUnderCluster [] t && !clusterUnderNode [] t

/-! ## Closed forms of the loops -/

/-- The timestamp-free content of an event. -/
def Event.content (e : Event) : String × String × String := (e.From, e.To, e.Msg)

/-- The mutex operations of one critical section of lock `l`. -/
def lockPair (l : Lock) : List LockOp := [LockOp.acquire l, LockOp.release l]

/-- A run of `record` calls, one per (from, to, msg) triple. -/
def recordAll (ms : List (String × String × String)) (w : World) : World :=
  ms.foldl (fun w m => record m.1 m.2.1 m.2.2 w) w

/-- The triples the vote loop records for the candidate `c` and peer `p`. -/
def voteMsgs (c p : Node) : List (String × String × String) :=
  [(c.ID, p.ID, "RequestVote(term=" ++ fmtD c.Term ++ ")"), (p.ID, c.ID, "VoteGranted")]

/-- The triple one heartbeat records for the leader `c` and peer `p`. -/
def heartbeatMsg (c p : Node) : String × String × String :=
  (c.ID, p.ID, "AppendEntries(term=" ++ fmtD c.Term ++ ", heartbeat)")

/-- The events (timestamps apart) one run of `simulate` appends when the nodes
have ids `c, p1, .., pk`: as the specification lists them. -/
def scenarioContent (c : String) (ps : List String) : List (String × String × String) :=
  ps.flatMap (fun p => [(c, p, "RequestVote(term=1)"), (p, c, "VoteGranted")])
    ++ (List.replicate 3 (ps.map (fun p => (c, p, "AppendEntries(term=1, heartbeat)")))).flatten

theorem recordAll_nil (w : World) : recordAll [] w = w := rfl

theorem recordAll_cons (m : String × String × String) (ms : List (String × String × String))
    (w : World) : recordAll (m :: ms) w = recordAll ms (record m.1 m.2.1 m.2.2 w) := rfl

theorem recordAll_append (ms ms' : List (String × String × String)) (w : World) :
    recordAll (ms ++ ms') w = recordAll ms' (recordAll ms w) := by
  simp [recordAll, List.foldl_append]

theorem record_nodes (s d m : String) (w : World) :
    (record s d m w).cluster.Nodes = w.cluster.Nodes := rfl

theorem record_elems (s d m : String) (w : World) :
    (record s d m w).cluster.Events.elems
      = w.cluster.Events.elems ++ [{ From := s, To := d, Msg := m, At := w.now w.reads }] := rfl

theorem record_lockLog (s d m : String) (w : World) :
    (record s d m w).lockLog = w.lockLog ++ lockPair Lock.cluster := by
  simp [record, lock, unlock, timeNow, lockPair]

theorem recordAll_nodes (ms : List (String × String × String)) (w : World) :
    (recordAll ms w).cluster.Nodes = w.cluster.Nodes := by
  induction ms generalizing w with
  | nil => rfl
  | cons m ms ih => rw [recordAll_cons, ih, record_nodes]

theorem recordAll_elems (ms : List (String × String × String)) (w : World) :
    ∃ app : List Event,
      (recordAll ms w).cluster.Events.elems = w.cluster.Events.elems ++ app
        ∧ app.map Event.content = ms := by
  induction ms generalizing w with
  | nil => exact ⟨[], by simp [recordAll_nil], rfl⟩
  | cons m ms ih =>
    obtain ⟨app, h1, h2⟩ := ih (record m.1 m.2.1 m.2.2 w)
    refine ⟨{ From := m.1, To := m.2.1, Msg := m.2.2, At := w.now w.reads } :: app, ?_, ?_⟩
    · rw [recordAll_cons, h1, record_elems]; simp
    · simp [Event.content, h2]

theorem recordAll_lockLog (ms : List (String × String × String)) (w : World) :
    (recordAll ms w).lockLog
      = w.lockLog ++ (List.replicate ms.length Lock.cluster).flatMap lockPair := by
  induction ms generalizing w with
  | nil => simp [recordAll_nil]
  | cons m ms ih =>
    rw [recordAll_cons, ih, record_lockLog]
    simp [List.replicate_succ]

/-- A loop whose body is a run of `record` calls chosen from the node list is
one run of `record` calls. -/
theorem foldl_recordAll (g : List Node → Nat → List (String × String × String))
    (step : World → Nat → World)
    (hstep : ∀ w i, step w i = recordAll (g w.cluster.Nodes i) w) (l : List Nat) (w : World) :
    l.foldl step w = recordAll (l.flatMap (g w.cluster.Nodes)) w := by
  induction l generalizing w with
  | nil => rfl
  | cons i l ih =>
    rw [List.foldl_cons, ih, hstep, recordAll_nodes, List.flatMap_cons, recordAll_append]

theorem voteStep_eq (w : World) (i : Nat) :
    voteStep w i
      = recordAll (voteMsgs (w.cluster.Nodes.getD 0 default) (w.cluster.Nodes.getD i default)) w :=
  rfl

theorem heartbeatStep_eq (w : World) (i : Nat) :
    heartbeatStep w i
      = recordAll [heartbeatMsg (w.cluster.Nodes.getD 0 default) (w.cluster.Nodes.getD i default)] w :=
  rfl

/-- Reading the peers `1 .. len-1` of `c :: ps` by index gives `ps`. -/
theorem peers_by_index (c : Node) (ps : List Node) :
    (List.range' 1 ((c :: ps).length - 1)).map (fun i => (c :: ps).getD i default) = ps := by
  apply List.ext_getElem
  · simp
  · intro n h1 h2
    simp at h1
    simp [List.getElem_range', List.getD_eq_getElem?_getD, Nat.add_comm 1 n, h1]

theorem flatMap_singleton_map {α β : Type} (f : α → β) (l : List α) :
    l.flatMap (fun p => [f p]) = l.map f := by
  induction l with
  | nil => rfl
  | cons a l ih => simp [List.flatMap_cons, ih]

/-- A loop over the peer indices of `c :: ps` is a loop over the peers `ps`. -/
theorem flatMap_peers {β : Type} (c : Node) (ps : List Node) (f : Node → List β) :
    (List.range' 1 ((c :: ps).length - 1)).flatMap (fun i => f ((c :: ps).getD i default))
      = ps.flatMap f := by
  have h := peers_by_index c ps
  have h2 : (List.range' 1 ((c :: ps).length - 1)).flatMap (fun i => f ((c :: ps).getD i default))
      = ((List.range' 1 ((c :: ps).length - 1)).map (fun i => (c :: ps).getD i default)).flatMap f := by
    rw [List.flatMap_map]
  rw [h2, h]

theorem lock_cluster (l : Lock) (w : World) : (lock l w).cluster = w.cluster := rfl

theorem unlock_cluster (l : Lock) (w : World) : (unlock l w).cluster = w.cluster := rfl

theorem setRole_nodes (i : Nat) (r : String) (w : World) :
    (setRole i r w).cluster.Nodes
      = modifyAt (fun nd => { nd with Role := r }) i w.cluster.Nodes := rfl

theorem setTerm_nodes (i : Nat) (t : Int) (w : World) :
    (setTerm i t w).cluster.Nodes
      = modifyAt (fun nd => { nd with Term := t }) i w.cluster.Nodes := rfl

theorem setRole_events (i : Nat) (r : String) (w : World) :
    (setRole i r w).cluster.Events = w.cluster.Events := rfl

theorem setTerm_events (i : Nat) (t : Int) (w : World) :
    (setTerm i t w).cluster.Events = w.cluster.Events := rfl

theorem heartbeatRound_eq (w : World) (c : Node) (ps : List Node)
    (h : w.cluster.Nodes = c :: ps) (r : Nat) :
    heartbeatRound w r = recordAll (ps.map (heartbeatMsg c)) w := by
  unfold heartbeatRound sleep
  simp only []
  rw [foldl_recordAll
    (fun ns i => [heartbeatMsg (ns.getD 0 default) (ns.getD i default)]) heartbeatStep
    heartbeatStep_eq, h]
  rw [flatMap_peers c ps (fun p => [heartbeatMsg ((c :: ps).getD 0 default) p])]
  rw [flatMap_singleton_map]
  rfl

/-- One run of `simulate` on a cluster with nodes `c :: ps`, as a straight line
of assignments and `record` calls. -/
theorem simulate_eq (w : World) (c : Node) (ps : List Node) (h : w.cluster.Nodes = c :: ps) :
    simulate w
      = recordAll
          (List.replicate 3 (ps.map (heartbeatMsg { c with Role := "leader", Term := 1 }))).flatten
          (unlock (Lock.node 0) (setRole 0 "leader" (lock (Lock.node 0)
            (recordAll (ps.flatMap (voteMsgs { c with Role := "candidate", Term := 1 }))
              (unlock (Lock.node 0) (setTerm 0 1 (setRole 0 "candidate"
                (lock (Lock.node 0) w)))))))) := by
  have hne : ¬ w.cluster.Nodes.length = 0 := by simp [h]
  have h1 : (unlock (Lock.node 0) (setTerm 0 1 (setRole 0 "candidate"
      (lock (Lock.node 0) w)))).cluster.Nodes
        = { c with Role := "candidate", Term := 1 } :: ps := by
    rw [unlock_cluster, setTerm_nodes, setRole_nodes, lock_cluster, h]
    rfl
  unfold simulate
  rw [if_neg hne]
  simp only []
  rw [foldl_recordAll (fun ns i => voteMsgs (ns.getD 0 default) (ns.getD i default)) voteStep
    voteStep_eq, h1]
  rw [flatMap_peers _ ps
    (fun p => voteMsgs (({ c with Role := "candidate", Term := 1 } :: ps).getD 0 default) p)]
  have h2 : (unlock (Lock.node 0) (setRole 0 "leader" (lock (Lock.node 0)
      (recordAll (ps.flatMap (voteMsgs { c with Role := "candidate", Term := 1 }))
        (unlock (Lock.node 0) (setTerm 0 1 (setRole 0 "candidate"
          (lock (Lock.node 0) w)))))))).cluster.Nodes
        = { c with Role := "leader", Term := 1 } :: ps := by
    rw [unlock_cluster, setRole_nodes, lock_cluster, recordAll_nodes, h1]
    rfl
  simp only [List.getD_cons_zero]
  generalize (unlock (Lock.node 0) (setRole 0 "leader" (lock (Lock.node 0)
      (recordAll (ps.flatMap (voteMsgs { c with Role := "candidate", Term := 1 }))
        (unlock (Lock.node 0) (setTerm 0 1 (setRole 0 "candidate"
          (lock (Lock.node 0) w)))))))) = w2 at h2 ⊢
  have e3 : (List.range 3).foldl heartbeatRound w2
      = heartbeatRound (heartbeatRound (heartbeatRound w2 0) 1) 2 := rfl
  have r1 := heartbeatRound_eq w2 _ ps h2 0
  have n1 : (recordAll (ps.map (heartbeatMsg { c with Role := "leader", Term := 1 })) w2).cluster.Nodes
      = { c with Role := "leader", Term := 1 } :: ps := by rw [recordAll_nodes]; exact h2
  have r2 := heartbeatRound_eq _ _ ps n1 1
  have n2 : (recordAll (ps.map (heartbeatMsg { c with Role := "leader", Term := 1 }))
      (recordAll (ps.map (heartbeatMsg { c with Role := "leader", Term := 1 })) w2)).cluster.Nodes
      = { c with Role := "leader", Term := 1 } :: ps := by rw [recordAll_nodes]; exact n1
  have r3 := heartbeatRound_eq _ _ ps n2 2
  rw [e3, r1, r2, r3]
  simp [List.replicate, recordAll_append]

theorem simulate_no_nodes (w : World) (h : w.cluster.Nodes = []) : simulate w = w := by
  unfold simulate
  rw [if_pos (by simp [h])]

theorem simulate_nodes (w : World) (c : Node) (ps : List Node) (h : w.cluster.Nodes = c :: ps) :
    (simulate w).cluster.Nodes = { c with Role := "leader", Term := 1 } :: ps := by
  rw [simulate_eq w c ps h, recordAll_nodes, unlock_cluster, setRole_nodes, lock_cluster,
    recordAll_nodes, unlock_cluster, setTerm_nodes, setRole_nodes, lock_cluster, h]
  rfl

theorem scenarioContent_eq (c : Node) (ps : List Node) :
    ps.flatMap (voteMsgs { c with Role := "candidate", Term := 1 })
        ++ (List.replicate 3 (ps.map (heartbeatMsg { c with Role := "leader", Term := 1 }))).flatten
      = scenarioContent c.ID (ps.map Node.ID) := by
  have hv : ∀ p : Node, voteMsgs { c with Role := "candidate", Term := 1 } p
      = [(c.ID, p.ID, "RequestVote(term=1)"), (p.ID, c.ID, "VoteGranted")] := by
    intro p
    have e : "RequestVote(term=" ++ fmtD 1 ++ ")" = "RequestVote(term=1)" := by decide
    simp [voteMsgs, e]
  have hh : ∀ p : Node, heartbeatMsg { c with Role := "leader", Term := 1 } p
      = (c.ID, p.ID, "AppendEntries(term=1, heartbeat)") := by
    intro p
    have e : "AppendEntries(term=" ++ fmtD 1 ++ ", heartbeat)"
        = "AppendEntries(term=1, heartbeat)" := by decide
    simp [heartbeatMsg, e]
  have hv2 : voteMsgs { c with Role := "candidate", Term := 1 }
      = fun p => [(c.ID, p.ID, "RequestVote(term=1)"), (p.ID, c.ID, "VoteGranted")] := funext hv
  have hh2 : heartbeatMsg { c with Role := "leader", Term := 1 }
      = fun p => (c.ID, p.ID, "AppendEntries(term=1, heartbeat)") := funext hh
  simp only [scenarioContent, List.flatMap_map, List.map_map, hv2, hh2, Function.comp_def]

theorem simulate_elems (w : World) (c : Node) (ps : List Node) (h : w.cluster.Nodes = c :: ps) :
    ∃ app : List Event,
      (simulate w).cluster.Events.elems = w.cluster.Events.elems ++ app
        ∧ app.map Event.content = scenarioContent c.ID (ps.map Node.ID) := by
  rw [simulate_eq w c ps h]
  obtain ⟨a2, e2, c2⟩ := recordAll_elems
    (List.replicate 3 (ps.map (heartbeatMsg { c with Role := "leader", Term := 1 }))).flatten
    (unlock (Lock.node 0) (setRole 0 "leader" (lock (Lock.node 0)
      (recordAll (ps.flatMap (voteMsgs { c with Role := "candidate", Term := 1 }))
        (unlock (Lock.node 0) (setTerm 0 1 (setRole 0 "candidate"
          (lock (Lock.node 0) w))))))))
  obtain ⟨a1, e1, c1⟩ := recordAll_elems
    (ps.flatMap (voteMsgs { c with Role := "candidate", Term := 1 }))
    (unlock (Lock.node 0) (setTerm 0 1 (setRole 0 "candidate" (lock (Lock.node 0) w))))
  refine ⟨a1 ++ a2, ?_, ?_⟩
  · rw [e2, unlock_cluster, setRole_events, lock_cluster, e1, unlock_cluster, setTerm_events,
      setRole_events, lock_cluster, List.append_assoc]
  · rw [List.map_append, c1, c2, scenarioContent_eq]

theorem scenarioContent_length (c : String) (ps : List String) :
    (scenarioContent c ps).length = 2 * ps.length + 3 * ps.length := by
  have h : ∀ l : List String,
      (l.flatMap (fun p => [(c, p, "RequestVote(term=1)"), (p, c, "VoteGranted")])).length
        = 2 * l.length := by
    intro l
    induction l with
    | nil => rfl
    | cons a l ih => simp [List.flatMap_cons, ih]; omega
  simp only [scenarioContent, List.length_append, h]
  simp [List.replicate]
  omega

/-- The number of events one run of `simulate` appends. -/
theorem simulate_len (w : World) (c : Node) (ps : List Node) (h : w.cluster.Nodes = c :: ps) :
    (simulate w).cluster.Events.len = w.cluster.Events.len + 5 * ps.length := by
  obtain ⟨app, e, hc⟩ := simulate_elems w c ps h
  have hl : app.length = (scenarioContent c.ID (ps.map Node.ID)).length := by
    rw [← hc, List.length_map]
  rw [scenarioContent_length, List.length_map] at hl
  simp only [Slice.len, e, List.length_append, hl]
  omega

theorem NewCluster_nodes_length (n : Nat) : (NewCluster n).Nodes.length = n := by
  simp [NewCluster]

theorem NewCluster_five :
    (NewCluster 5).Nodes
      = [⟨"N1", "follower", 0⟩, ⟨"N2", "follower", 0⟩, ⟨"N3", "follower", 0⟩,
         ⟨"N4", "follower", 0⟩, ⟨"N5", "follower", 0⟩] := by
  decide

/-! ## Closed form of `reset` -/

theorem modifyAt_length_append {α : Type} (f : α → α) (pre : List α) (a : α) (l : List α) :
    modifyAt f pre.length (pre ++ a :: l) = pre ++ f a :: l := by
  induction pre with
  | nil => rfl
  | cons b pre ih => simp [modifyAt, ih]

theorem foldl_modifyAt_range' {α : Type} (f : α → α) (l pre : List α) :
    (List.range' pre.length l.length).foldl (fun ns i => modifyAt f i ns) (pre ++ l)
      = pre ++ l.map f := by
  induction l generalizing pre with
  | nil => simp
  | cons a l ih =>
    have h := ih (pre ++ [f a])
    simp only [List.length_append, List.length_singleton, List.append_assoc,
      List.singleton_append] at h
    simp only [List.length_cons, List.range'_succ, List.foldl_cons, modifyAt_length_append,
      List.map_cons]
    exact h

theorem foldl_modifyAt_range {α : Type} (f : α → α) (l : List α) :
    (List.range l.length).foldl (fun ns i => modifyAt f i ns) l = l.map f := by
  have h := foldl_modifyAt_range' f l []
  simpa [List.range_eq_range'] using h

theorem modifyAt_modifyAt {α : Type} (f g : α → α) (i : Nat) (l : List α) :
    modifyAt g i (modifyAt f i l) = modifyAt (fun x => g (f x)) i l := by
  induction l generalizing i with
  | nil => cases i <;> rfl
  | cons a l ih =>
    cases i with
    | zero => rfl
    | succ i => simp [modifyAt, ih]

theorem resetStep_nodes (w : World) (i : Nat) :
    (resetStep w i).cluster.Nodes
      = modifyAt (fun nd => { ID := nd.ID, Role := "follower", Term := 0 }) i w.cluster.Nodes := by
  show modifyAt _ i (modifyAt _ i w.cluster.Nodes) = _
  rw [modifyAt_modifyAt]

theorem resetStep_events (w : World) (i : Nat) :
    (resetStep w i).cluster.Events = w.cluster.Events := rfl

theorem resetStep_lockLog (w : World) (i : Nat) :
    (resetStep w i).lockLog = w.lockLog ++ lockPair (Lock.node i) := by
  simp [resetStep, lock, unlock, setRole, setTerm, lockPair]

theorem foldl_resetStep_nodes (l : List Nat) (w : World) :
    (l.foldl resetStep w).cluster.Nodes
      = l.foldl (fun ns i => modifyAt (fun nd => { ID := nd.ID, Role := "follower", Term := 0 }) i ns)
          w.cluster.Nodes := by
  induction l generalizing w with
  | nil => rfl
  | cons i l ih => rw [List.foldl_cons, ih, resetStep_nodes, List.foldl_cons]

theorem foldl_resetStep_lockLog (l : List Nat) (w : World) :
    (l.foldl resetStep w).lockLog = w.lockLog ++ l.flatMap (fun i => lockPair (Lock.node i)) := by
  induction l generalizing w with
  | nil => simp
  | cons i l ih => rw [List.foldl_cons, ih, resetStep_lockLog, List.flatMap_cons, List.append_assoc]

theorem reset_nodes (w : World) :
    (reset w).cluster.Nodes
      = w.cluster.Nodes.map (fun nd => { ID := nd.ID, Role := "follower", Term := 0 }) := by
  show ((List.range w.cluster.Nodes.length).foldl resetStep (lock Lock.cluster w)).cluster.Nodes = _
  rw [foldl_resetStep_nodes, lock_cluster, foldl_modifyAt_range]

theorem reset_events (w : World) : (reset w).cluster.Events = none := rfl

theorem reset_lockLog (w : World) :
    (reset w).lockLog
      = w.lockLog ++ (LockOp.acquire Lock.cluster
          :: (List.range w.cluster.Nodes.length).flatMap (fun i => lockPair (Lock.node i))
          ++ [LockOp.release Lock.cluster]) := by
  show ((List.range w.cluster.Nodes.length).foldl resetStep (lock Lock.cluster w)).lockLog
      ++ [LockOp.release Lock.cluster] = _
  rw [foldl_resetStep_lockLog]
  simp [lock]

theorem simulate_ids (w : World) :
    (simulate w).cluster.Nodes.map Node.ID = w.cluster.Nodes.map Node.ID := by
  cases hn : w.cluster.Nodes with
  | nil => rw [simulate_no_nodes w hn, hn]
  | cons c ps => rw [simulate_nodes w c ps hn]; rfl

theorem reset_ids (w : World) :
    (reset w).cluster.Nodes.map Node.ID = w.cluster.Nodes.map Node.ID := by
  rw [reset_nodes, List.map_map]
  rfl

theorem runOps_ids (ops : List Op) (w : World) :
    (runOps ops w).cluster.Nodes.map Node.ID = w.cluster.Nodes.map Node.ID := by
  induction ops generalizing w with
  | nil => rfl
  | cons op ops ih =>
    show (runOps ops (op.run w)).cluster.Nodes.map Node.ID = _
    rw [ih]
    cases op
    · exact simulate_ids w
    · exact reset_ids w

theorem NewCluster_nodes_eq (n : Nat) :
    (NewCluster n).Nodes
      = ((NewCluster n).Nodes.map Node.ID).map
          (fun id => { ID := id, Role := "follower", Term := 0 }) := by
  simp [NewCluster, Function.comp_def]

/-! ## Closed form of `mermaidSequence` -/

theorem foldl_append_string (l : List String) (a : String) :
    l.foldl (fun r s => r ++ s) a = a ++ l.foldl (fun r s => r ++ s) "" := by
  induction l generalizing a with
  | nil => simp
  | cons x l ih =>
    rw [List.foldl_cons, ih, List.foldl_cons, ih ("" ++ x)]
    simp [String.append_assoc]

theorem join_cons (x : String) (l : List String) : String.join (x :: l) = x ++ String.join l := by
  show (x :: l).foldl (fun r s => r ++ s) "" = x ++ l.foldl (fun r s => r ++ s) ""
  rw [List.foldl_cons, foldl_append_string]
  simp

/-- Writing one chunk per element to a `strings.Builder` appends their concatenation. -/
theorem foldl_write {α : Type} (f : α → String) (l : List α) (b : String) :
    l.foldl (fun b x => b ++ f x) b = b ++ String.join (l.map f) := by
  induction l generalizing b with
  | nil => simp [String.join]
  | cons x l ih => rw [List.foldl_cons, ih, List.map_cons, join_cons, String.append_assoc]

theorem mermaidSequence_eq (o : RangeOrder) (events : Slice Event) :
    mermaidSequence o events
      = "sequenceDiagram\n"
          ++ String.join ((o.visit (collectParts events.elems)).map participantLine)
          ++ String.join (events.elems.map messageLine) := by
  unfold mermaidSequence
  simp only [foldl_write]
  simp

theorem mem_mapSet (parts : List String) (k x : String) :
    x ∈ mapSet parts k ↔ x ∈ parts ∨ x = k := by
  unfold mapSet
  split
  · constructor
    · intro h; exact Or.inl h
    · rintro (h | h)
      · exact h
      · subst h; assumption
  · simp

theorem nodup_mapSet (parts : List String) (k : String) (h : parts.Nodup) :
    (mapSet parts k).Nodup := by
  unfold mapSet
  split
  · exact h
  · rename_i hk
    rw [List.nodup_append]
    refine ⟨h, List.nodup_singleton k, ?_⟩
    intro a ha hb
    simp at hb
    subst hb
    exact hk ha

theorem foldl_mapSet_nodup (events : List Event) (acc : List String) (h : acc.Nodup) :
    (events.foldl (fun parts e => mapSet (mapSet parts e.From) e.To) acc).Nodup := by
  induction events generalizing acc with
  | nil => exact h
  | cons e es ih => exact ih _ (nodup_mapSet _ _ (nodup_mapSet _ _ h))

theorem mem_foldl_mapSet (events : List Event) (acc : List String) (x : String) :
    x ∈ events.foldl (fun parts e => mapSet (mapSet parts e.From) e.To) acc
      ↔ x ∈ acc ∨ ∃ e ∈ events, e.From = x ∨ e.To = x := by
  induction events generalizing acc with
  | nil => simp
  | cons e es ih =>
    rw [List.foldl_cons, ih, mem_mapSet, mem_mapSet]
    constructor
    · rintro ((((h | h) | h)) | ⟨e', he', h⟩)
      · exact Or.inl h
      · exact Or.inr ⟨e, List.mem_cons_self _ _, Or.inl h.symm⟩
      · exact Or.inr ⟨e, List.mem_cons_self _ _, Or.inr h.symm⟩
      · exact Or.inr ⟨e', List.mem_cons_of_mem _ he', h⟩
    · rintro (h | ⟨e', he', h⟩)
      · exact Or.inl (Or.inl (Or.inl h))
      · rcases List.mem_cons.mp he' with rfl | he'
        · rcases h with h | h
          · exact Or.inl (Or.inl (Or.inr h.symm))
          · exact Or.inl (Or.inr h.symm)
        · exact Or.inr ⟨e', he', h⟩

theorem collectParts_nodup (events : List Event) : (collectParts events).Nodup :=
  foldl_mapSet_nodup events [] List.nodup_nil

theorem mem_collectParts (events : List Event) (x : String) :
    x ∈ collectParts events ↔ ∃ e ∈ events, e.From = x ∨ e.To = x := by
  unfold collectParts
  rw [mem_foldl_mapSet]
  simp

/-! ## Lock logs -/

theorem nodeUnderCluster_pair (l : Lock) (rest : List LockOp) :
    nodeUnderCluster [] (lockPair l ++ rest) = nodeUnderCluster [] rest := by
  simp [lockPair, nodeUnderCluster]

theorem clusterUnderNode_pair (l : Lock) (rest : List LockOp) :
    clusterUnderNode [] (lockPair l ++ rest) = clusterUnderNode [] rest := by
  simp [lockPair, clusterUnderNode]

theorem clusterUnderNode_node_pair (held : List Lock) (i : Nat) (rest : List LockOp) :
    clusterUnderNode held (lockPair (Lock.node i) ++ rest) = clusterUnderNode held rest := by
  simp [lockPair, clusterUnderNode, Lock.isNode]

theorem nodeUnderCluster_sections (ls : List Lock) :
    nodeUnderCluster [] (ls.flatMap lockPair) = false := by
  induction ls with
  | nil => rfl
  | cons l ls ih => rw [List.flatMap_cons, nodeUnderCluster_pair, ih]

theorem clusterUnderNode_sections (ls : List Lock) :
    clusterUnderNode [] (ls.flatMap lockPair) = false := by
  induction ls with
  | nil => rfl
  | cons l ls ih => rw [List.flatMap_cons, clusterUnderNode_pair, ih]

theorem neverNested_sections (ls : List Lock) : neverNested (ls.flatMap lockPair) = true := by
  simp [neverNested, nodeUnderCluster_sections, clusterUnderNode_sections]

/-- Critical sections of node mutexes never acquire the cluster mutex. -/
theorem clusterUnderNode_node_sections (held : List Lock) (is : List Nat) (rest : List LockOp) :
    clusterUnderNode held (is.flatMap (fun i => lockPair (Lock.node i)) ++ rest)
      = clusterUnderNode held rest := by
  induction is with
  | nil => rfl
  | cons i is ih =>
    rw [List.flatMap_cons, List.append_assoc, clusterUnderNode_node_pair, ih]

theorem record_lockTrace (s d m : String) (w : World) :
    lockTrace (record s d m) w = [Lock.cluster].flatMap lockPair := by
  simp [lockTrace, record_lockLog, lockPair]

/-- The mutex operations of `simulate` form a sequence of critical sections,
each of a single mutex. -/
theorem simulate_lockLog (w : World) :
    ∃ ls : List Lock, (simulate w).lockLog = w.lockLog ++ ls.flatMap lockPair := by
  cases hn : w.cluster.Nodes with
  | nil => exact ⟨[], by rw [simulate_no_nodes w hn]; simp⟩
  | cons c ps =>
    refine ⟨[Lock.node 0]
      ++ List.replicate
          (ps.flatMap (voteMsgs { c with Role := "candidate", Term := 1 })).length Lock.cluster
      ++ [Lock.node 0]
      ++ List.replicate
          (List.replicate 3
            (ps.map (heartbeatMsg { c with Role := "leader", Term := 1 }))).flatten.length
          Lock.cluster, ?_⟩
    rw [simulate_eq w c ps hn, recordAll_lockLog]
    have e1 : ∀ v : World, (unlock (Lock.node 0) (setRole 0 "leader" (lock (Lock.node 0) v))).lockLog
        = v.lockLog ++ lockPair (Lock.node 0) := by
      intro v; simp [unlock, setRole, lock, lockPair]
    have e2 : (unlock (Lock.node 0) (setTerm 0 1 (setRole 0 "candidate"
        (lock (Lock.node 0) w)))).lockLog = w.lockLog ++ lockPair (Lock.node 0) := by
      simp [unlock, setRole, setTerm, lock, lockPair]
    rw [e1, recordAll_lockLog, e2]
    simp only [List.flatMap_append, List.flatMap_cons, List.flatMap_nil, List.append_nil,
      List.append_assoc]

theorem simulate_lockTrace (w : World) :
    ∃ ls : List Lock, lockTrace simulate w = ls.flatMap lockPair := by
  obtain ⟨ls, h⟩ := simulate_lockLog { w with lockLog := [] }
  exact ⟨ls, by simp [lockTrace, h]⟩

theorem reset_lockTrace (w : World) :
    lockTrace reset w
      = LockOp.acquire Lock.cluster
          :: ((List.range w.cluster.Nodes.length).flatMap (fun i => lockPair (Lock.node i))
          ++ [LockOp.release Lock.cluster]) := by
  simp [lockTrace, reset_lockLog]

theorem reset_clusterUnderNode (w : World) : clusterUnderNode [] (lockTrace reset w) = false := by
  rw [reset_lockTrace]
  simp only [clusterUnderNode, clusterUnderNode_node_sections]
  simp [Lock.isNode]

theorem reset_nodeUnderCluster (w : World) :
    nodeUnderCluster [] (lockTrace reset w) = true ↔ w.cluster.Nodes ≠ [] := by
  rw [reset_lockTrace]
  cases hn : w.cluster.Nodes with
  | nil => simp [nodeUnderCluster]
  | cons c ps =>
    simp [List.range_succ_eq_map, lockPair, nodeUnderCluster, Lock.isNode]

/-! ## The claims -/

/-- C1. For every cluster with `N ≥ 1` nodes and any existing event log, one
run of `simulate` keeps the log as a prefix of the new log and appends exactly
`2*(N-1) + 3*(N-1) = 5*(N-1)` events after it.  On a fresh `NewCluster(N)` the
event count after one run is `5*(N-1)` (0 when `N = 1`), and after two runs
without a reset it is twice the count after one run. -/
theorem simulate_event_count (N : Nat) (hN : 1 ≤ N) :
    (∀ w : World, w.cluster.Nodes.length = N →
      ∃ app : List Event,
        (simulate w).cluster.Events.elems = w.cluster.Events.elems ++ app
          ∧ (app.length : Int) = 2 * ((N : Int) - 1) + 3 * ((N : Int) - 1)
          ∧ (app.length : Int) = 5 * ((N : Int) - 1))
    ∧ (∀ (now : Nat → Int) (reads : Nat) (log : List LockOp),
        ((simulate ⟨NewCluster N, now, reads, log⟩).cluster.Events.len : Int) = 5 * ((N : Int) - 1)
          ∧ (N = 1 → (simulate ⟨NewCluster N, now, reads, log⟩).cluster.Events.len = 0)
          ∧ (simulate (simulate ⟨NewCluster N, now, reads, log⟩)).cluster.Events.len
              = 2 * (simulate ⟨NewCluster N, now, reads, log⟩).cluster.Events.len) := by
  constructor
  · intro w hw
    cases hn : w.cluster.Nodes with
    | nil => rw [hn] at hw; simp at hw; omega
    | cons c ps =>
      obtain ⟨app, e, hc⟩ := simulate_elems w c ps hn
      have hl : app.length = (scenarioContent c.ID (ps.map Node.ID)).length := by
        rw [← hc, List.length_map]
      rw [scenarioContent_length, List.length_map] at hl
      rw [hn] at hw
      simp at hw
      refine ⟨app, e, ?_, ?_⟩ <;> omega
  · intro now reads log
    cases hn : (NewCluster N).Nodes with
    | nil =>
      have := NewCluster_nodes_length N
      rw [hn] at this; simp at this; omega
    | cons c ps =>
      have hlen : ps.length + 1 = N := by
        have := NewCluster_nodes_length N
        rw [hn] at this; simpa using this
      have h1 := simulate_len ⟨NewCluster N, now, reads, log⟩ c ps hn
      have h2 := simulate_len (simulate ⟨NewCluster N, now, reads, log⟩)
        { c with Role := "leader", Term := 1 } ps
        (simulate_nodes ⟨NewCluster N, now, reads, log⟩ c ps hn)
      have h0 : (NewCluster N).Events.len = 0 := rfl
      simp only [h0] at h1
      refine ⟨?_, ?_, ?_⟩
      · omega
      · intro h; omega
      · omega

/-- Witness for C1 at `N = 5`: four times five events appended to a fresh log,
20 events after one run, twice as many after two. -/
theorem simulate_event_count_witness :
    1 ≤ 5
    ∧ (∃ app : List Event,
        (simulate (freshWorld 5 (fun _ => 0))).cluster.Events.elems
            = (freshWorld 5 (fun _ => 0)).cluster.Events.elems ++ app
          ∧ (app.length : Int) = 2 * (((5 : Nat) : Int) - 1) + 3 * (((5 : Nat) : Int) - 1)
          ∧ (app.length : Int) = 5 * (((5 : Nat) : Int) - 1))
    ∧ (((simulate ⟨NewCluster 5, fun _ => 0, 0, []⟩).cluster.Events.len : Int)
          = 5 * (((5 : Nat) : Int) - 1)
        ∧ (5 = 1 → (simulate ⟨NewCluster 5, fun _ => 0, 0, []⟩).cluster.Events.len = 0)
        ∧ (simulate (simulate ⟨NewCluster 5, fun _ => 0, 0, []⟩)).cluster.Events.len
            = 2 * (simulate ⟨NewCluster 5, fun _ => 0, 0, []⟩).cluster.Events.len) :=
  ⟨by decide,
   (simulate_event_count 5 (by decide)).1 (freshWorld 5 (fun _ => 0)) (by decide),
   (simulate_event_count 5 (by decide)).2 (fun _ => 0) 0 []⟩

/-- C2. For a cluster whose nodes are `c, p1, .., pk` in index order, the events
one run of `simulate` appends are, timestamps apart and in this order: for each
peer the pair `c → p : RequestVote(term=1)`, `p → c : VoteGranted`; then three
times the block of `c → p : AppendEntries(term=1, heartbeat)` over all peers.
For `NewCluster(5)` these are 8 vote events followed by 12 heartbeats. -/
theorem simulate_appends_scenario (c : Node) (ps : List Node) (L : Slice Event)
    (now : Nat → Int) (reads : Nat) (log : List LockOp) :
    (∃ app : List Event,
      (simulate ⟨⟨c :: ps, L⟩, now, reads, log⟩).cluster.Events.elems = L.elems ++ app
        ∧ app.map Event.content
            = ps.flatMap (fun p =>
                [(c.ID, p.ID, "RequestVote(term=1)"), (p.ID, c.ID, "VoteGranted")])
              ++ ps.map (fun p => (c.ID, p.ID, "AppendEntries(term=1, heartbeat)"))
              ++ ps.map (fun p => (c.ID, p.ID, "AppendEntries(term=1, heartbeat)"))
              ++ ps.map (fun p => (c.ID, p.ID, "AppendEntries(term=1, heartbeat)")))
    ∧ (simulate ⟨NewCluster 5, now, reads, log⟩).cluster.Events.elems.map Event.content
        = [("N1", "N2", "RequestVote(term=1)"), ("N2", "N1", "VoteGranted"),
           ("N1", "N3", "RequestVote(term=1)"), ("N3", "N1", "VoteGranted"),
           ("N1", "N4", "RequestVote(term=1)"), ("N4", "N1", "VoteGranted"),
           ("N1", "N5", "RequestVote(term=1)"), ("N5", "N1", "VoteGranted"),
           ("N1", "N2", "AppendEntries(term=1, heartbeat)"),
           ("N1", "N3", "AppendEntries(term=1, heartbeat)"),
           ("N1", "N4", "AppendEntries(term=1, heartbeat)"),
           ("N1", "N5", "AppendEntries(term=1, heartbeat)"),
           ("N1", "N2", "AppendEntries(term=1, heartbeat)"),
           ("N1", "N3", "AppendEntries(term=1, heartbeat)"),
           ("N1", "N4", "AppendEntries(term=1, heartbeat)"),
           ("N1", "N5", "AppendEntries(term=1, heartbeat)"),
           ("N1", "N2", "AppendEntries(term=1, heartbeat)"),
           ("N1", "N3", "AppendEntries(term=1, heartbeat)"),
           ("N1", "N4", "AppendEntries(term=1, heartbeat)"),
           ("N1", "N5", "AppendEntries(term=1, heartbeat)")] := by
  constructor
  · obtain ⟨app, e, hc⟩ := simulate_elems ⟨⟨c :: ps, L⟩, now, reads, log⟩ c ps rfl
    refine ⟨app, e, ?_⟩
    rw [hc]
    simp [scenarioContent, List.replicate, List.flatMap_map, Function.comp_def]
  · obtain ⟨app, e, hc⟩ := simulate_elems ⟨NewCluster 5, now, reads, log⟩
      ⟨"N1", "follower", 0⟩
      [⟨"N2", "follower", 0⟩, ⟨"N3", "follower", 0⟩, ⟨"N4", "follower", 0⟩, ⟨"N5", "follower", 0⟩]
      NewCluster_five
    rw [e]
    have h0 : (NewCluster 5).Events.elems = [] := rfl
    simp only [h0, List.nil_append, hc]
    decide

/-- C3. For every cluster with at least one node, whatever the roles and terms
before (node 0 may be leader already), after one run of `simulate` node 0 is
`leader` with term 1 and keeps its id, and every other node and the node count
are unchanged; a second run leaves the nodes as the first did.  After one run
on `NewCluster(5)`, `N1` is leader with term 1, `N2 .. N5` followers with term 0. -/
theorem simulate_nodes_frame (c : Node) (ps : List Node) (L : Slice Event)
    (now : Nat → Int) (reads : Nat) (log : List LockOp) :
    (simulate ⟨⟨c :: ps, L⟩, now, reads, log⟩).cluster.Nodes
        = { ID := c.ID, Role := "leader", Term := 1 } :: ps
    ∧ (simulate (simulate ⟨⟨c :: ps, L⟩, now, reads, log⟩)).cluster.Nodes
        = { ID := c.ID, Role := "leader", Term := 1 } :: ps
    ∧ (simulate ⟨NewCluster 5, now, reads, log⟩).cluster.Nodes
        = [⟨"N1", "leader", 1⟩, ⟨"N2", "follower", 0⟩, ⟨"N3", "follower", 0⟩,
           ⟨"N4", "follower", 0⟩, ⟨"N5", "follower", 0⟩] := by
  have h1 := simulate_nodes ⟨⟨c :: ps, L⟩, now, reads, log⟩ c ps rfl
  refine ⟨h1, ?_, ?_⟩
  · exact simulate_nodes _ { ID := c.ID, Role := "leader", Term := 1 } ps h1
  · exact simulate_nodes ⟨NewCluster 5, now, reads, log⟩ ⟨"N1", "follower", 0⟩
      [⟨"N2", "follower", 0⟩, ⟨"N3", "follower", 0⟩, ⟨"N4", "follower", 0⟩, ⟨"N5", "follower", 0⟩]
      NewCluster_five

/-- C4. For every cluster state, after `reset` the event slice is nil (count 0),
every node is `follower` with term 0, and the number of nodes and every node's
id are unchanged; `reset` applied to any state reached from `NewCluster(n)` by
`simulate` and `reset` gives back the cluster `NewCluster(n)`. -/
theorem reset_restores (w : World) (n : Nat) (ops : List Op)
    (now : Nat → Int) (reads : Nat) (log : List LockOp) :
    (reset w).cluster.Events = none
    ∧ (reset w).cluster.Events.len = 0
    ∧ (∀ nd ∈ (reset w).cluster.Nodes, nd.Role = "follower" ∧ nd.Term = 0)
    ∧ (reset w).cluster.Nodes.length = w.cluster.Nodes.length
    ∧ (reset w).cluster.Nodes.map Node.ID = w.cluster.Nodes.map Node.ID
    ∧ (reset (runOps ops ⟨NewCluster n, now, reads, log⟩)).cluster = NewCluster n := by
  refine ⟨rfl, rfl, ?_, ?_, reset_ids w, ?_⟩
  · intro nd hnd
    rw [reset_nodes, List.mem_map] at hnd
    obtain ⟨a, _, rfl⟩ := hnd
    exact ⟨rfl, rfl⟩
  · rw [reset_nodes, List.length_map]
  · have hids := runOps_ids ops ⟨NewCluster n, now, reads, log⟩
    have hn : (reset (runOps ops ⟨NewCluster n, now, reads, log⟩)).cluster.Nodes
        = (NewCluster n).Nodes := by
      rw [reset_nodes, NewCluster_nodes_eq n, ← hids, List.map_map]
      rfl
    have he : (reset (runOps ops ⟨NewCluster n, now, reads, log⟩)).cluster.Events
        = (NewCluster n).Events := rfl
    cases hc : (reset (runOps ops ⟨NewCluster n, now, reads, log⟩)).cluster with
    | mk ns es =>
      rw [hc] at hn he
      simp only at hn he
      rw [hn, he]

/-- C5. For every event sequence, the output of `mermaidSequence` is the header
line, then the participant lines, then exactly one message line per event, in
event order, each `From->>To: Msg` followed by a newline. -/
theorem mermaidSequence_message_lines (o : RangeOrder) (events : Slice Event) :
    mermaidSequence o events
        = "sequenceDiagram\n"
            ++ String.join ((o.visit (collectParts events.elems)).map
                (fun p => "participant " ++ p ++ "\n"))
            ++ String.join (events.elems.map
                (fun e => e.From ++ "->>" ++ e.To ++ ": " ++ e.Msg ++ "\n"))
    ∧ (events.elems.map (fun e => e.From ++ "->>" ++ e.To ++ ": " ++ e.Msg ++ "\n")).length
        = events.len := by
  refine ⟨mermaidSequence_eq o events, ?_⟩
  simp [Slice.len]

/-- C6. For the nil and for the empty event sequence, `mermaidSequence` returns
exactly the header line `sequenceDiagram` with its newline. -/
theorem mermaidSequence_empty (o : RangeOrder) :
    mermaidSequence o none = "sequenceDiagram\n"
    ∧ mermaidSequence o (some []) = "sequenceDiagram\n" := by
  have h : o.visit [] = [] := List.Perm.eq_nil (o.perm [])
  constructor
  · rw [mermaidSequence_eq]
    show "sequenceDiagram\n" ++ String.join ((o.visit []).map participantLine) ++ String.join [] = _
    rw [h]
    decide
  · rw [mermaidSequence_eq]
    show "sequenceDiagram\n" ++ String.join ((o.visit []).map participantLine) ++ String.join [] = _
    rw [h]
    decide

/-- C7. For every event sequence and every order in which the map of
participants is visited, `mermaidSequence` writes, between the header and the
message lines, one line `participant <id>` per element of a list without
repetition whose elements are exactly the identifiers occurring as `From` or
`To` of some event. -/
theorem mermaidSequence_participants (o : RangeOrder) (events : Slice Event) :
    ∃ ps : List String,
      ps.Nodup
      ∧ (∀ id : String, id ∈ ps ↔ ∃ e ∈ events.elems, e.From = id ∨ e.To = id)
      ∧ mermaidSequence o events
          = "sequenceDiagram\n"
              ++ String.join (ps.map (fun p => "participant " ++ p ++ "\n"))
              ++ String.join (events.elems.map messageLine) := by
  refine ⟨o.visit (collectParts events.elems), ?_, ?_, mermaidSequence_eq o events⟩
  · exact (o.perm _).nodup_iff.mpr (collectParts_nodup _)
  · intro id
    rw [(o.perm _).mem_iff, mem_collectParts]

/-- C8. On `/simulate` and `/reset`, a request whose method is not `POST` gets
status 405 and leaves the whole state as it was; with method `POST` the handler
runs one `simulate`, respectively one `reset`, and answers 200 with the body
`{"ok":true}`. -/
theorem mutating_handlers_method_guard (r : Request) (w : World) :
    (r.Method ≠ "POST" →
      (simulateHandler ResponseWriter.fresh r w).1 = w
      ∧ (simulateHandler ResponseWriter.fresh r w).2.code = 405
      ∧ (resetHandler ResponseWriter.fresh r w).1 = w
      ∧ (resetHandler ResponseWriter.fresh r w).2.code = 405)
    ∧ (r.Method = "POST" →
      (simulateHandler ResponseWriter.fresh r w).1 = simulate w
      ∧ (simulateHandler ResponseWriter.fresh r w).2.code = 200
      ∧ (simulateHandler ResponseWriter.fresh r w).2.body = "\x7b\"ok\":true\x7d"
      ∧ (resetHandler ResponseWriter.fresh r w).1 = reset w
      ∧ (resetHandler ResponseWriter.fresh r w).2.code = 200
      ∧ (resetHandler ResponseWriter.fresh r w).2.body = "\x7b\"ok\":true\x7d") := by
  constructor
  · intro h
    have h2 : r.Method ≠ MethodPost := h
    have e1 : simulateHandler ResponseWriter.fresh r w
        = (w, ResponseWriter.fresh.WriteHeader StatusMethodNotAllowed) := by
      unfold simulateHandler; rw [if_pos h2]
    have e2 : resetHandler ResponseWriter.fresh r w
        = (w, ResponseWriter.fresh.WriteHeader StatusMethodNotAllowed) := by
      unfold resetHandler; rw [if_pos h2]
    rw [e1, e2]
    exact ⟨rfl, rfl, rfl, rfl⟩
  · intro h
    have h2 : ¬ r.Method ≠ MethodPost := fun k => k h
    have e1 : simulateHandler ResponseWriter.fresh r w
        = (simulate w, (ResponseWriter.fresh.setHeader "Content-Type" "application/json").Write
            "\x7b\"ok\":true\x7d") := by
      unfold simulateHandler; rw [if_neg h2]
    have e2 : resetHandler ResponseWriter.fresh r w
        = (reset w, (ResponseWriter.fresh.setHeader "Content-Type" "application/json").Write
            "\x7b\"ok\":true\x7d") := by
      unfold resetHandler; rw [if_neg h2]
    rw [e1, e2]
    exact ⟨rfl, rfl, rfl, rfl, rfl, rfl⟩

/-- Witness for C8: a `GET` and a `POST` request on the startup state. -/
theorem mutating_handlers_method_guard_witness :
    ((simulateHandler ResponseWriter.fresh ⟨"GET"⟩ (startup (fun _ => 0))).1 = startup (fun _ => 0)
      ∧ (simulateHandler ResponseWriter.fresh ⟨"GET"⟩ (startup (fun _ => 0))).2.code = 405
      ∧ (resetHandler ResponseWriter.fresh ⟨"GET"⟩ (startup (fun _ => 0))).1 = startup (fun _ => 0)
      ∧ (resetHandler ResponseWriter.fresh ⟨"GET"⟩ (startup (fun _ => 0))).2.code = 405)
    ∧ ((simulateHandler ResponseWriter.fresh ⟨"POST"⟩ (startup (fun _ => 0))).1
          = simulate (startup (fun _ => 0))
      ∧ (simulateHandler ResponseWriter.fresh ⟨"POST"⟩ (startup (fun _ => 0))).2.code = 200
      ∧ (simulateHandler ResponseWriter.fresh ⟨"POST"⟩ (startup (fun _ => 0))).2.body
          = "\x7b\"ok\":true\x7d"
      ∧ (resetHandler ResponseWriter.fresh ⟨"POST"⟩ (startup (fun _ => 0))).1
          = reset (startup (fun _ => 0))
      ∧ (resetHandler ResponseWriter.fresh ⟨"POST"⟩ (startup (fun _ => 0))).2.code = 200
      ∧ (resetHandler ResponseWriter.fresh ⟨"POST"⟩ (startup (fun _ => 0))).2.body
          = "\x7b\"ok\":true\x7d") :=
  ⟨(mutating_handlers_method_guard ⟨"GET"⟩ (startup (fun _ => 0))).1 (by decide),
   (mutating_handlers_method_guard ⟨"POST"⟩ (startup (fun _ => 0))).2 rfl⟩

/-- C9 (the code at the failing input). `GET /events` answers 200 with the JSON
encoding of the event slice; right after a `reset` the slice is nil and the
body is `null`, not an array, also on the state `main` starts with. -/
theorem events_after_reset_is_null (r : Request) (w : World) (now : Nat → Int) :
    (eventsHandler ResponseWriter.fresh r w).2.code = 200
    ∧ (eventsHandler ResponseWriter.fresh r w).2.body = jsonEncodeEvents w.cluster.Events
    ∧ (eventsHandler ResponseWriter.fresh r (reset w)).2.body = "null\n"
    ∧ (eventsHandler ResponseWriter.fresh ⟨"GET"⟩ (reset (startup now))).2.body = "null\n"
    ∧ "null\n" ≠ "[]\n" := by
  refine ⟨rfl, ?_, ?_, ?_, by decide⟩
  · simp [eventsHandler, ResponseWriter.Write, ResponseWriter.WriteHeader,
      ResponseWriter.setHeader, ResponseWriter.fresh, lock]
  · simp [eventsHandler, ResponseWriter.Write, ResponseWriter.WriteHeader,
      ResponseWriter.setHeader, ResponseWriter.fresh, lock, lock_cluster, reset_events,
      jsonEncodeEvents]
  · simp [eventsHandler, ResponseWriter.Write, ResponseWriter.WriteHeader,
      ResponseWriter.setHeader, ResponseWriter.fresh, lock, lock_cluster, reset_events,
      jsonEncodeEvents]

/-- C10, as stated, fails: `reset` on the state `main` starts with acquires a
node mutex while it holds the cluster mutex. -/
theorem reset_nests_node_lock_in_cluster_lock :
    neverNested (lockTrace reset (startup (fun _ => 0))) = false
    ∧ nodeUnderCluster [] (lockTrace reset (startup (fun _ => 0))) = true := by
  decide

/-- C10, amended. `record`, `simulate` and the handlers of `/events`,
`/simulate`, `/sequence` and `/` never hold a node mutex and the cluster mutex
together; `reset` (and the `/reset` handler) never acquires the cluster mutex
while a node mutex is held, but does acquire every node's mutex, one after the
other, while holding the cluster mutex (so it nests whenever there is a node). -/
theorem lock_discipline (w : World) (s d m : String) (r : Request) (o : RangeOrder)
    (html : String) (rw : ResponseWriter) :
    neverNested (lockTrace (record s d m) w) = true
    ∧ neverNested (lockTrace simulate w) = true
    ∧ neverNested (lockTrace (fun v => (eventsHandler rw r v).1) w) = true
    ∧ neverNested (lockTrace (fun v => (simulateHandler rw r v).1) w) = true
    ∧ neverNested (lockTrace (fun v => (sequenceHandler o rw r v).1) w) = true
    ∧ neverNested (lockTrace (fun v => (indexHandler html rw r v).1) w) = true
    ∧ clusterUnderNode [] (lockTrace reset w) = false
    ∧ clusterUnderNode [] (lockTrace (fun v => (resetHandler rw r v).1) w) = false
    ∧ (nodeUnderCluster [] (lockTrace reset w) = true ↔ w.cluster.Nodes ≠ [])
    ∧ lockTrace reset w
        = LockOp.acquire Lock.cluster
            :: ((List.range w.cluster.Nodes.length).flatMap
                  (fun i => [LockOp.acquire (Lock.node i), LockOp.release (Lock.node i)])
                ++ [LockOp.release Lock.cluster]) := by
  have hsim : neverNested (lockTrace simulate w) = true := by
    obtain ⟨ls, h⟩ := simulate_lockTrace w
    rw [h]
    exact neverNested_sections ls
  refine ⟨?_, hsim, ?_, ?_, ?_, ?_, reset_clusterUnderNode w, ?_, reset_nodeUnderCluster w,
    reset_lockTrace w⟩
  · rw [record_lockTrace]
    exact neverNested_sections _
  · exact neverNested_sections [Lock.cluster]
  · by_cases h : r.Method ≠ MethodPost
    · simp only [simulateHandler, if_pos h]
      exact neverNested_sections []
    · simp only [simulateHandler, if_neg h]
      exact hsim
  · exact neverNested_sections [Lock.cluster]
  · exact neverNested_sections []
  · by_cases h : r.Method ≠ MethodPost
    · simp only [resetHandler, if_pos h]
      rfl
    · simp only [resetHandler, if_neg h]
      exact reset_clusterUnderNode w

end RaftViz
